import Mathlib

/-!
Shallow embedding of app/main.py of the fastapi-railway service: a FastAPI
gateway over MongoDB (motor) exposing a cluster registry, generic CRUD
endpoints over a caller-selected collection, and a destructive
drop-and-import endpoint fed by pandas.

Modelling conventions, each cited at the definition it concerns:
- a Python dict is an association list of string keys and Values with unique
  keys; dict assignment replaces the entry in place or appends a new one;
- a BSON ObjectId is a natural number; str(ObjectId) is its 24-digit
  lower-case hexadecimal rendering, exactly the boundary format of bson;
- a MongoDB collection is a list of documents in storage order plus the
  counter from which fresh ObjectIds are drawn (ObjectId generation is
  client-side and global, so dropping a collection does not reset it);
- each endpoint is a pure function from its request inputs and the relevant
  pre-call state to an Except result paired with the post-call state;
- HTTPException(status, detail) is constructor ApiErr.http; a Python
  exception that no handler catches (FastAPI then answers with a generic
  500) is constructor ApiErr.uncaught;
- the external readers pd.read_csv and pd.read_excel are oracle parameters
  of drop_and_import; a pandas DataFrame is a list of rows, each row an
  association of column name to an optional cell (a missing cell, NaN in
  pandas, is none).
-/

/-- A JSON-representable document value; vOid is a store-assigned BSON
ObjectId, modelled as the natural number it encodes. -/
inductive Value where
  | vNull
  | vBool (b : Bool)
  | vInt (n : Int)
  | vStr (s : String)
  | vOid (n : Nat)
  deriving DecidableEq

/-- A document: a Python dict, keys in insertion order. -/
abbrev Doc := List (String × Value)

/-- The keys of a document in order. -/
def docKeys (d : Doc) : List String := d.map Prod.fst

/-- Python item[k] read: first entry with the given key, if any. -/
def getField : Doc → String → Option Value
  | [], _ => none
  | p :: rest, k => if p.1 = k then some p.2 else getField rest k

/-- Python item[k] = v: replace the entry in place, else append at the end. -/
def setField : Doc → String → Value → Doc
  | [], k, v => [(k, v)]
  | p :: rest, k, v => if p.1 = k then (k, v) :: rest else p :: setField rest k v

/-- Python del item[k]: remove the entry with the given key. -/
def delField : Doc → String → Doc
  | [], _ => []
  | p :: rest, k => if p.1 = k then rest else p :: delField rest k

/-- Number of entries carrying the given key (1 or 0 for a well-formed
dict; a list representation can in principle hold more). -/
def countKey : Doc → String → Nat
  | [], _ => 0
  | p :: rest, k => (if p.1 = k then 1 else 0) + countKey rest k

/-- MongoDB update operator used at main.py line 187: set every supplied
field, leaving all others untouched (merge-patch). -/
def applySet (d : Doc) (u : Doc) : Doc :=
  u.foldl (fun acc p => setField acc p.1 p.2) d

/-- find_one(query) filter semantics for plain (non-operator) filter
documents: every filter field must be present with the given value. -/
def docMatches (q : Doc) (d : Doc) : Bool :=
  q.all (fun p => getField d p.1 == some p.2)

/-- The filter document used by update, delete and re-read at main.py
lines 187, 190 and 203: the _id field equals the given ObjectId. -/
def idMatches (v : Value) (d : Doc) : Bool := getField d "_id" == some v

/-- One lower-case hexadecimal digit character, for 0 to 15. -/
def hexDigit (n : Nat) : Char := Char.ofNat (if n < 10 then 48 + n else 87 + n)

/-- Big-endian fixed-width hexadecimal rendering of n, low fuel digits. -/
def hexChars : Nat → Nat → List Char
  | 0, _ => []
  | fuel + 1, n => hexChars fuel (n / 16) ++ [hexDigit (n % 16)]

/-- str(ObjectId): the 24-character lower-case hex string of the 12-byte id. -/
def oidStr (n : Nat) : String := String.mk (hexChars 24 n)

/-- Numeric value of one hexadecimal character (0 for a non-hex character;
only applied to hex characters). -/
def hexVal (c : Char) : Nat :=
  if 48 ≤ c.toNat ∧ c.toNat ≤ 57 then c.toNat - 48
  else if 97 ≤ c.toNat ∧ c.toNat ≤ 102 then c.toNat - 87
  else if 65 ≤ c.toNat ∧ c.toNat ≤ 70 then c.toNat - 55
  else 0

/-- Value of a big-endian hex digit list. -/
def hexAcc (l : List Char) : Nat := l.foldl (fun a c => 16 * a + hexVal c) 0

/-- bson accepts a string as an ObjectId iff it is 24 hexadecimal
characters (either case). -/
def isHexCharB (c : Char) : Bool :=
  (48 ≤ c.toNat && c.toNat ≤ 57) || (97 ≤ c.toNat && c.toNat ≤ 102)
    || (65 ≤ c.toNat && c.toNat ≤ 70)

/-- Whether bson ObjectId(s) succeeds on a string argument. -/
def validObjectId (s : String) : Bool :=
  s.length == 24 && s.toList.all isHexCharB

/-- bson ObjectId(item_id) as called at main.py lines 187, 190, 203: parse
the 24-hex-character string or raise InvalidId (which no endpoint catches). -/
def oidFromString (s : String) : Except String Nat :=
  if validObjectId s then .ok (hexAcc s.toList) else .error ("bson InvalidId: " ++ s)

/-- Python str() on a document value, as used by serialize; at every call
site the argument is the stored _id. -/
def valueStr : Value → String
  | .vNull => "None"
  | .vBool b => if b then "True" else "False"
  | .vInt n => toString n
  | .vStr s => s
  | .vOid n => oidStr n

/-- serialize at main.py lines 28-31: item[id] = str(item[_id]); del
item[_id]. A document lacking _id would raise KeyError in Python; every
call site passes a stored document, which always carries _id, so that
branch is modelled as the identity. -/
def serialize (item : Doc) : Doc :=
  match getField item "_id" with
  | some v => delField (setField item "id" (Value.vStr (valueStr v))) "_id"
  | none => item

/-- A MongoDB collection: stored documents in storage-native order, plus
the counter from which the client driver draws fresh ObjectIds. -/
structure Coll where
  docs : List Doc
  nextId : Nat
  deriving DecidableEq

/-- Well-formed collection state: every stored document is a real dict
(unique keys) and carries a store-assigned _id drawn before nextId. -/
def collWF (c : Coll) : Prop :=
  ∀ d ∈ c.docs, (docKeys d).Nodup ∧
    ∃ k, k < c.nextId ∧ getField d "_id" = some (Value.vOid k)

/-- insert_one: if the caller supplied an _id it is used as the inserted
id, otherwise the driver assigns the next fresh ObjectId; the document is
appended in storage order. Returns the inserted id. -/
def collInsertOne (c : Coll) (item : Doc) : Value × Coll :=
  match getField item "_id" with
  | some v => (v, ⟨c.docs ++ [item], c.nextId⟩)
  | none =>
    (Value.vOid c.nextId,
     ⟨c.docs ++ [item ++ [("_id", Value.vOid c.nextId)]], c.nextId + 1⟩)

/-- insert_many: sequential insert_one of each document, ids in order. -/
def collInsertMany (c : Coll) : List Doc → List Value × Coll
  | [] => ([], c)
  | item :: rest =>
    let r := collInsertOne c item
    let r2 := collInsertMany r.2 rest
    (r.1 :: r2.1, r2.2)

/-- find_one on an _id filter: first stored document with that _id. -/
def collFindOneById (c : Coll) (v : Value) : Option Doc :=
  c.docs.find? (idMatches v)

/-- find with an _id-in-list filter plus a to_list limit, as at main.py
line 138: stored-order documents whose _id is among ids, first limit. -/
def findIdIn (c : Coll) (ids : List Value) (limit : Nat) : List Doc :=
  (c.docs.filter (fun d =>
    match getField d "_id" with
    | some v => ids.contains v
    | none => false)).take limit

/-- Replace the first document matching the _id filter. -/
def replaceFirstById (docs : List Doc) (v : Value) (nd : Doc) : List Doc :=
  match docs with
  | [] => []
  | d :: rest =>
    if idMatches v d then nd :: rest else d :: replaceFirstById rest v nd

/-- Remove the first document matching the _id filter. -/
def removeFirstById (docs : List Doc) (v : Value) : List Doc :=
  match docs with
  | [] => []
  | d :: rest =>
    if idMatches v d then rest else d :: removeFirstById rest v

/-- matched_count and modified_count of an update_one reply. -/
structure UpdateResult where
  matched : Nat
  modified : Nat
  deriving DecidableEq

/-- update_one with a set-document on an _id filter. MongoDB rejects an
empty set-document (the server answers that $set is empty and pymongo
raises the write error), so that case is an error. At most one document
matches; modified_count stays 0 when the merge-patch leaves the matched
document unchanged. -/
def collUpdateOne (c : Coll) (v : Value) (setFields : Doc) :
    Except String (UpdateResult × Coll) :=
  if setFields.isEmpty then .error "WriteError: $set is empty"
  else
    match c.docs.find? (idMatches v) with
    | none => .ok (⟨0, 0⟩, c)
    | some d =>
      let d2 := applySet d setFields
      if d2 = d then .ok (⟨1, 0⟩, c)
      else .ok (⟨1, 1⟩, ⟨replaceFirstById c.docs v d2, c.nextId⟩)

/-- delete_one on an _id filter: deleted_count and the new state. -/
def collDeleteOne (c : Coll) (v : Value) : Nat × Coll :=
  if c.docs.any (idMatches v) then (1, ⟨removeFirstById c.docs v, c.nextId⟩)
  else (0, c)

/-- The two ways a request fails: a raised HTTPException(status, detail),
or an exception no handler catches, which FastAPI turns into a generic
500 response. -/
inductive ApiErr where
  | http (status : Nat) (detail : String)
  | uncaught (msg : String)
  deriving DecidableEq

/-- A live motor client: the process-wide default client built at startup
(main.py line 23), or a fresh AsyncIOMotorClient(uri) built per request. -/
inductive Client where
  | defaultClient
  | fresh (uri : String)
  deriving DecidableEq

/-- One registry document of the cluster_connections collection: the
fields read and written by main.py (cluster name and connection URI). -/
structure ClusterDoc where
  cluster : String
  uri : String
  deriving DecidableEq

/-- Registry invariant claimed by the spec: cluster names and URIs are
each globally unique. -/
def regWF (reg : List ClusterDoc) : Prop :=
  (reg.map (fun e => e.cluster)).Nodup ∧ (reg.map (fun e => e.uri)).Nodup

/-- get_client_from_cluster at main.py lines 33-41. The selector defaults
to the string default when absent; an empty string is falsy in Python, so
it also yields the default client. A registry miss raises 404 naming the
selector (quote punctuation of the f-string elided); a hit builds a fresh
client for the registered URI. -/
def get_client_from_cluster (reg : List ClusterDoc) (cluster : String) :
    Except ApiErr Client :=
  if cluster = "" ∨ cluster = "default" then .ok Client.defaultClient
  else
    match reg.find? (fun e => e.cluster == cluster) with
    | none => .error (.http 404 ("Cluster " ++ cluster ++ " not found"))
    | some e => .ok (Client.fresh e.uri)

/-- register_cluster at main.py lines 47-60: look up the name and the URI,
reject a duplicate name (400), then a duplicate URI (400), else append the
new registration and report the status string. -/
def register_cluster (reg : List ClusterDoc) (clustername mongouri : String) :
    Except ApiErr String × List ClusterDoc :=
  let existing_name := reg.find? (fun e => e.cluster == clustername)
  let existing_uri := reg.find? (fun e => e.uri == mongouri)
  if existing_name.isSome then
    (.error (.http 400 ("Cluster name " ++ clustername ++ " already exists")), reg)
  else if existing_uri.isSome then
    (.error (.http 400 "This MongoDB URI is already registered"), reg)
  else
    (.ok "registered", reg ++ [⟨clustername, mongouri⟩])

/-- create_item at main.py lines 84-95, after connection resolution:
insert the document, re-read it by the inserted id, return it serialized.
find_one returning no document would make serialize(None) raise; with the
document just inserted that branch is unreachable, modelled as uncaught. -/
def create_item (item : Doc) (c : Coll) : Except ApiErr Doc × Coll :=
  let r := collInsertOne c item
  match collFindOneById r.2 r.1 with
  | some d => (.ok (serialize d), r.2)
  | none => (.error (.uncaught "TypeError: NoneType"), r.2)

/-- get_items at main.py lines 98-107: find().to_list(100), i.e. the first
100 documents in storage order, each serialized. -/
def get_items (c : Coll) : Except ApiErr (List Doc) × Coll :=
  (.ok ((c.docs.take 100).map serialize), c)

/-- query_item at main.py lines 110-122: find_one on the caller filter,
404 on a miss, else the match serialized. -/
def query_item (q : Doc) (c : Coll) : Except ApiErr Doc × Coll :=
  match c.docs.find? (docMatches q) with
  | none => (.error (.http 404 "Item not found"), c)
  | some d => (.ok (serialize d), c)

/-- insert_many_items at main.py lines 125-139: reject an empty list with
400 before touching any backend, else insert all documents and re-read
them with an _id-in filter limited to the number of inserted ids. -/
def insert_many_items (items : List Doc) (c : Coll) :
    Except ApiErr (List Doc) × Coll :=
  if items.isEmpty then (.error (.http 400 "No data to insert"), c)
  else
    let r := collInsertMany c items
    let inserted := findIdIn r.2 r.1 r.1.length
    (.ok (inserted.map serialize), r.2)

/-- A pandas DataFrame as far as main.py observes it: rows in order, each
row mapping column names to an optional cell; a missing cell (NaN) is
none. -/
structure DataFrame where
  rows : List (List (String × Option Value))
  deriving DecidableEq

/-- df.fillna(v): replace every missing cell by v, keep the rest. -/
def fillna (df : DataFrame) (v : Value) : DataFrame :=
  ⟨df.rows.map (fun r => r.map (fun p => (p.1, some (p.2.getD v))))⟩

/-- df.to_dict(orient=records): one document per row; every call follows
fillna, so the default never fires there. -/
def toRecords (df : DataFrame) : List Doc :=
  df.rows.map (fun r => r.map (fun p => (p.1, p.2.getD (Value.vStr ""))))

/-- Which loader drop_and_import picks for a link. -/
inductive LoaderChoice where
  | csv
  | xls
  | unsupported
  deriving DecidableEq

/-- Whether the first list is an initial segment of the second. -/
def leadsWith : List Char → List Char → Bool
  | [], _ => true
  | _ :: _, [] => false
  | p :: ps, s :: ss => p == s && leadsWith ps ss

/-- Whether pat occurs as a contiguous segment of the second list. -/
def occursIn (pat : List Char) : List Char → Bool
  | [] => pat.isEmpty
  | s :: ss => leadsWith pat (s :: ss) || occursIn pat ss

/-- Python substring containment, the test pat in link. -/
def containsSub (s pat : String) : Bool := occursIn pat.toList s.toList

/-- The loader selection of main.py lines 154-159: the substring csv
anywhere in the link picks read_csv, else the substring xls anywhere
picks read_excel, else the unsupported branch. -/
def sniffLoader (link : String) : LoaderChoice :=
  if containsSub link "csv" then .csv
  else if containsSub link "xls" then .xls
  else .unsupported

/-- Whether s ends with the given suffix. -/
def endsWithSuffix (s pat : String) : Bool :=
  leadsWith pat.toList.reverse s.toList.reverse

/-- Modelled from the spec: the loader selection the spec describes,
filename-extension sniffing on the link string (a csv extension pattern
against a spreadsheet extension pattern). Written from the spec words
only, to compare the claim with the source behaviour sniffLoader. -/
def specExtensionChoice (link : String) : LoaderChoice :=
  if endsWithSuffix link ".csv" then .csv
  else if endsWithSuffix link ".xls" || endsWithSuffix link ".xlsx" then .xls
  else .unsupported

/-- The reply of a successful drop_and_import: inserted count and the
serialized first-3 sample. -/
structure ImportResult where
  inserted_count : Nat
  sample : List Doc
  deriving DecidableEq

/-- main.py lines 163-174, after a successful load: fillna with the empty
string, to_dict records, reject zero rows with 400, else insert_many and
answer with the count and the find().to_list(3) sample serialized. -/
def importRows (df : DataFrame) (c1 : Coll) : Except ApiErr ImportResult × Coll :=
  let df2 := fillna df (Value.vStr "")
  let items := toRecords df2
  if items.isEmpty then (.error (.http 400 "No data to insert"), c1)
  else
    let r := collInsertMany c1 items
    (.ok ⟨r.1.length, (r.2.docs.take 3).map serialize⟩, r.2)

/-- drop_and_import at main.py lines 142-174. The collection is dropped
first (line 151), before any look at the link. The loaders run inside a
try whose except wraps every failure, including the HTTPException(400)
raised for an unsupported link, into a 400 whose detail prepends the
load-failure text to str of the caught exception (str of an
HTTPException is its status, a colon and its detail). -/
def drop_and_import (csvRead xlsRead : String → Except String DataFrame)
    (link : String) (c : Coll) : Except ApiErr ImportResult × Coll :=
  let c1 : Coll := ⟨[], c.nextId⟩
  match sniffLoader link with
  | .unsupported =>
    (.error (.http 400 "Failed to load file: 400: Unsupported file type"), c1)
  | .csv =>
    match csvRead link with
    | .error e => (.error (.http 400 ("Failed to load file: " ++ e)), c1)
    | .ok df => importRows df c1
  | .xls =>
    match xlsRead link with
    | .error e => (.error (.http 400 ("Failed to load file: " ++ e)), c1)
    | .ok df => importRows df c1

/-- update_item at main.py lines 177-191, after connection resolution:
ObjectId(item_id) is evaluated first (inside the update_one argument
list) and raises uncaught on an invalid string; there is no emptiness
check on the payload, the dict goes to update_one as the set-document
unfiltered; a zero modified_count answers 404; otherwise the document is
re-read by id and returned serialized (find_one cannot miss a document
that was just modified; the None branch is the unreachable
serialize(None) crash). -/
def update_item (item_id : String) (update : Doc) (c : Coll) :
    Except ApiErr Doc × Coll :=
  match oidFromString item_id with
  | .error m => (.error (.uncaught m), c)
  | .ok n =>
    match collUpdateOne c (Value.vOid n) update with
    | .error m => (.error (.uncaught m), c)
    | .ok rc =>
      if rc.1.modified = 0 then (.error (.http 404 "Item not found"), rc.2)
      else
        match collFindOneById rc.2 (Value.vOid n) with
        | some d => (.ok (serialize d), rc.2)
        | none => (.error (.uncaught "TypeError: NoneType"), rc.2)

/-- delete_item at main.py lines 194-206, after connection resolution:
ObjectId(item_id) raises uncaught on an invalid string; a zero
deleted_count answers 404; else the fixed status document. -/
def delete_item (item_id : String) (c : Coll) : Except ApiErr Doc × Coll :=
  match oidFromString item_id with
  | .error m => (.error (.uncaught m), c)
  | .ok n =>
    let r := collDeleteOne c (Value.vOid n)
    if r.1 = 0 then (.error (.http 404 "Item not found"), r.2)
    else (.ok [("status", Value.vStr "deleted")], r.2)

/-- The ids insert_many assigns when no document carries its own _id:
fresh ObjectIds counted from n0. -/
def idsFrom (n0 : Nat) : Nat → List Value
  | 0 => []
  | len + 1 => Value.vOid n0 :: idsFrom (n0 + 1) len

/-- The documents insert_many stores when no document carries its own
_id: each input document with its assigned _id appended. -/
def withIds (n0 : Nat) : List Doc → List Doc
  | [] => []
  | it :: rest => (it ++ [("_id", Value.vOid n0)]) :: withIds (n0 + 1) rest

/-- The id fields of the serialized insert_many reply, in order. -/
def strIds (n0 : Nat) : Nat → List (Option Value)
  | 0 => []
  | len + 1 => some (Value.vStr (oidStr n0)) :: strIds (n0 + 1) len

theorem getField_eq_none_iff (d : Doc) (k : String) :
    getField d k = none ↔ countKey d k = 0 := by
  induction d with
  | nil => simp [getField, countKey]
  | cons p rest ih =>
    by_cases h : p.1 = k <;> simp [getField, countKey, h, ih]

theorem countKey_eq_zero_iff (d : Doc) (k : String) :
    countKey d k = 0 ↔ k ∉ docKeys d := by
  induction d with
  | nil => simp [countKey, docKeys]
  | cons p rest ih =>
    by_cases h : p.1 = k <;>
      simp [countKey, docKeys, h, ih, eq_comm (a := k)]

theorem getField_setField_self (d : Doc) (k : String) (v : Value) :
    getField (setField d k v) k = some v := by
  induction d with
  | nil => simp [setField, getField]
  | cons p rest ih =>
    by_cases h : p.1 = k <;> simp [setField, getField, h, ih]

theorem getField_setField_ne (d : Doc) (k k2 : String) (v : Value)
    (h : k2 ≠ k) : getField (setField d k v) k2 = getField d k2 := by
  induction d with
  | nil => simp [setField, getField, Ne.symm h]
  | cons p rest ih =>
    by_cases hp : p.1 = k
    · simp [setField, getField, hp, Ne.symm h]
    · by_cases hp2 : p.1 = k2 <;>
        simp [setField, getField, hp, hp2, h, Ne.symm h, ih]

theorem getField_delField_ne (d : Doc) (k k2 : String)
    (h : k2 ≠ k) : getField (delField d k) k2 = getField d k2 := by
  induction d with
  | nil => simp [delField]
  | cons p rest ih =>
    by_cases hp : p.1 = k
    · have : ¬ p.1 = k2 := by rw [hp]; exact Ne.symm h
      simp [delField, getField, hp, this, Ne.symm h]
    · by_cases hp2 : p.1 = k2 <;>
        simp [delField, getField, hp, hp2, h, Ne.symm h, ih]

theorem countKey_setField_self (d : Doc) (k : String) (v : Value) :
    countKey (setField d k v) k = if countKey d k = 0 then 1 else countKey d k := by
  induction d with
  | nil => simp [setField, countKey]
  | cons p rest ih =>
    by_cases h : p.1 = k <;> simp [setField, countKey, h, ih] <;> split <;> omega

theorem countKey_setField_ne (d : Doc) (k k2 : String) (v : Value)
    (h : k2 ≠ k) : countKey (setField d k v) k2 = countKey d k2 := by
  induction d with
  | nil => simp [setField, countKey, Ne.symm h]
  | cons p rest ih =>
    by_cases hp : p.1 = k
    · have : ¬ k = k2 := Ne.symm h
      simp [setField, countKey, hp, this]
    · simp [setField, countKey, hp, ih]

theorem countKey_delField_self (d : Doc) (k : String) :
    countKey (delField d k) k = countKey d k - 1 := by
  induction d with
  | nil => simp [delField, countKey]
  | cons p rest ih =>
    by_cases h : p.1 = k <;> simp [delField, countKey, h, ih] <;> omega

theorem countKey_delField_ne (d : Doc) (k k2 : String)
    (h : k2 ≠ k) : countKey (delField d k) k2 = countKey d k2 := by
  induction d with
  | nil => simp [delField]
  | cons p rest ih =>
    by_cases hp : p.1 = k
    · have : ¬ p.1 = k2 := by rw [hp]; exact Ne.symm h
      simp [delField, countKey, hp, this, Ne.symm h]
    · simp [delField, countKey, hp, ih]

theorem getField_append_none (a b : Doc) (k : String)
    (h : getField a k = none) : getField (a ++ b) k = getField b k := by
  induction a with
  | nil => simp
  | cons p rest ih =>
    by_cases hp : p.1 = k
    · simp [getField, hp] at h
    · simp only [getField, hp, if_false, List.cons_append, ite_false] at *
      exact ih h

theorem countKey_le_one_of_nodup (d : Doc) (k : String)
    (h : (docKeys d).Nodup) : countKey d k ≤ 1 := by
  induction d with
  | nil => simp [countKey]
  | cons p rest ih =>
    simp only [docKeys, List.map_cons, List.nodup_cons] at h
    by_cases hp : p.1 = k
    · have h0 : countKey rest k = 0 := by
        rw [countKey_eq_zero_iff]
        rw [hp] at h
        exact h.1
      simp [countKey, hp, h0]
    · simpa [countKey, hp] using ih h.2

theorem getField_applySet_notin (u : Doc) (d : Doc) (k : String)
    (h : countKey u k = 0) : getField (applySet d u) k = getField d k := by
  induction u generalizing d with
  | nil => simp [applySet]
  | cons p rest ih =>
    simp only [countKey] at h
    by_cases hp : p.1 = k
    · simp [hp] at h
    · have hr : countKey rest k = 0 := by
        simp [hp] at h
        exact h
      have step : applySet d (p :: rest) = applySet (setField d p.1 p.2) rest := by
        simp [applySet]
      rw [step, ih (setField d p.1 p.2) hr,
        getField_setField_ne d p.1 k p.2 (fun hh => hp hh.symm)]

theorem serialize_eq (d : Doc) (v : Value) (hid : getField d "_id" = some v) :
    serialize d = delField (setField d "id" (Value.vStr (valueStr v))) "_id" := by
  simp [serialize, hid]

theorem serialize_spec (d : Doc) (v : Value)
    (hid : getField d "_id" = some v) (hnd : (docKeys d).Nodup) :
    getField (serialize d) "id" = some (Value.vStr (valueStr v))
    ∧ countKey (serialize d) "id" = 1
    ∧ getField (serialize d) "_id" = none
    ∧ countKey (serialize d) "_id" = 0 := by
  have hne : "id" ≠ "_id" := by decide
  have hcnt : countKey d "_id" ≤ 1 := countKey_le_one_of_nodup d "_id" hnd
  have hpos : countKey d "_id" ≠ 0 := by
    intro h0
    rw [← getField_eq_none_iff] at h0
    rw [hid] at h0
    exact Option.noConfusion h0
  rw [serialize_eq d v hid]
  refine ⟨?_, ?_, ?_, ?_⟩
  · rw [getField_delField_ne _ _ _ hne, getField_setField_self]
  · rw [countKey_delField_ne _ _ _ hne, countKey_setField_self]
    have : countKey d "id" ≤ 1 := countKey_le_one_of_nodup d "id" hnd
    split <;> omega
  · rw [getField_eq_none_iff, countKey_delField_self,
      countKey_setField_ne _ _ _ _ (Ne.symm hne)]
    omega
  · rw [countKey_delField_self, countKey_setField_ne _ _ _ _ (Ne.symm hne)]
    omega

theorem getField_appended_id (it : Doc) (m : Nat)
    (h : getField it "_id" = none) :
    getField (it ++ [("_id", Value.vOid m)]) "_id" = some (Value.vOid m) := by
  rw [getField_append_none _ _ _ h]
  simp [getField]

theorem serialize_withid (it : Doc) (m : Nat)
    (h : getField it "_id" = none) :
    getField (serialize (it ++ [("_id", Value.vOid m)])) "id"
      = some (Value.vStr (oidStr m)) := by
  rw [serialize_eq _ _ (getField_appended_id it m h),
    getField_delField_ne _ _ _ (by decide),
    getField_setField_self]
  rfl

theorem hexVal_hexDigit (m : Nat) (hm : m < 16) :
    hexVal (hexDigit m) = m := by
  interval_cases m <;> decide

theorem foldl_hexChars (fuel : Nat) : ∀ n acc : Nat,
    List.foldl (fun a c => 16 * a + hexVal c) acc (hexChars fuel n)
      = acc * 16 ^ fuel + n % 16 ^ fuel := by
  induction fuel with
  | zero => intro n acc; simp [hexChars, Nat.mod_one]
  | succ f ih =>
    intro n acc
    simp only [hexChars, List.foldl_append, List.foldl_cons, List.foldl_nil]
    rw [ih (n / 16) acc, hexVal_hexDigit (n % 16) (Nat.mod_lt n (by omega))]
    have h16 : (16 : Nat) ^ (f + 1) = 16 * 16 ^ f := by ring
    rw [h16, Nat.mod_mul]
    ring

theorem hexAcc_hexChars (n : Nat) : hexAcc (hexChars 24 n) = n % 16 ^ 24 := by
  simp [hexAcc, foldl_hexChars]

theorem oidStr_inj (m n : Nat) (hm : m < 16 ^ 24) (hn : n < 16 ^ 24)
    (h : oidStr m = oidStr n) : m = n := by
  have hc : hexChars 24 m = hexChars 24 n := congrArg String.data h
  have h2 := congrArg hexAcc hc
  rw [hexAcc_hexChars, hexAcc_hexChars, Nat.mod_eq_of_lt hm,
    Nat.mod_eq_of_lt hn] at h2
  exact h2

theorem withIds_length (n0 : Nat) (items : List Doc) :
    (withIds n0 items).length = items.length := by
  induction items generalizing n0 with
  | nil => rfl
  | cons it rest ih => simp [withIds, ih]

theorem idsFrom_length (n0 len : Nat) : (idsFrom n0 len).length = len := by
  induction len generalizing n0 with
  | zero => rfl
  | succ l ih => simp [idsFrom, ih]

theorem collInsertMany_noid (items : List Doc) : ∀ c : Coll,
    (∀ it ∈ items, getField it "_id" = none) →
    collInsertMany c items
      = (idsFrom c.nextId items.length,
         ⟨c.docs ++ withIds c.nextId items, c.nextId + items.length⟩) := by
  induction items with
  | nil => intro c _; simp [collInsertMany, idsFrom, withIds]
  | cons it rest ih =>
    intro c h
    have hit : getField it "_id" = none := h it (by simp)
    have hrest : ∀ x ∈ rest, getField x "_id" = none :=
      fun x hx => h x (by simp [hx])
    simp only [collInsertMany, collInsertOne, hit]
    rw [ih _ hrest]
    simp only [idsFrom, withIds, List.length_cons, Prod.mk.injEq, Coll.mk.injEq]
    refine ⟨trivial, by simp [List.append_assoc], by omega⟩

theorem mem_idsFrom (len : Nat) : ∀ n0 j : Nat, j < len →
    Value.vOid (n0 + j) ∈ idsFrom n0 len := by
  induction len with
  | zero => intro n0 j hj; omega
  | succ l ih =>
    intro n0 j hj
    cases j with
    | zero => simp [idsFrom]
    | succ j2 =>
      have hm : Value.vOid (n0 + 1 + j2) ∈ idsFrom (n0 + 1) l :=
        ih (n0 + 1) j2 (by omega)
      have e : n0 + (j2 + 1) = n0 + 1 + j2 := by omega
      rw [e]
      exact List.mem_cons_of_mem _ hm

theorem mem_idsFrom_inv (len : Nat) : ∀ n0 : Nat, ∀ v : Value,
    v ∈ idsFrom n0 len → ∃ j, j < len ∧ v = Value.vOid (n0 + j) := by
  induction len with
  | zero => intro n0 v h; simp [idsFrom] at h
  | succ l ih =>
    intro n0 v h
    simp only [idsFrom, List.mem_cons] at h
    rcases h with h | h
    · exact ⟨0, by omega, by simp [h]⟩
    · obtain ⟨j, hj, he⟩ := ih (n0 + 1) v h
      exact ⟨j + 1, by omega, by rw [he]; congr 1; omega⟩

theorem withIds_filter_all (items : List Doc) : ∀ n0 : Nat, ∀ ids : List Value,
    (∀ it ∈ items, getField it "_id" = none) →
    (∀ j, j < items.length → Value.vOid (n0 + j) ∈ ids) →
    (withIds n0 items).filter (fun d =>
      match getField d "_id" with
      | some v => ids.contains v
      | none => false) = withIds n0 items := by
  induction items with
  | nil => intro n0 ids _ _; rfl
  | cons it rest ih =>
    intro n0 ids h hmem
    have hid := getField_appended_id it n0 (h it (by simp))
    have hm : Value.vOid n0 ∈ ids := by
      have h0 := hmem 0 (by simp)
      simpa using h0
    have hcont : ids.contains (Value.vOid n0) = true :=
      List.elem_eq_true_of_mem hm
    simp only [withIds, List.filter_cons, hid, hcont, if_true]
    rw [ih (n0 + 1) ids (fun x hx => h x (by simp [hx]))
      (fun j hj => by
        have := hmem (j + 1) (by simp; omega)
        have e : n0 + (j + 1) = n0 + 1 + j := by omega
        rwa [e] at this)]

theorem old_docs_filter_none (c : Coll) (hwf : collWF c) (len : Nat) :
    c.docs.filter (fun d =>
      match getField d "_id" with
      | some v => (idsFrom c.nextId len).contains v
      | none => false) = [] := by
  rw [List.filter_eq_nil_iff]
  intro d hd
  obtain ⟨-, k, hk, hgf⟩ := hwf d hd
  simp only [hgf]
  intro hcontains
  have hmem := List.mem_of_elem_eq_true hcontains
  obtain ⟨j, hj, he⟩ := mem_idsFrom_inv _ _ _ hmem
  injection he with he2
  omega

theorem withIds_serialize_ids (items : List Doc) : ∀ n0 : Nat,
    (∀ it ∈ items, getField it "_id" = none) →
    ((withIds n0 items).map serialize).map (fun d => getField d "id")
      = strIds n0 items.length := by
  induction items with
  | nil => intro n0 _; rfl
  | cons it rest ih =>
    intro n0 h
    simp only [withIds, List.map_cons, List.length_cons, strIds]
    rw [serialize_withid it n0 (h it (by simp)),
      ih (n0 + 1) (fun x hx => h x (by simp [hx]))]

theorem mem_strIds_inv (len : Nat) : ∀ n0 : Nat, ∀ x : Option Value,
    x ∈ strIds n0 len →
    ∃ j, j < len ∧ x = some (Value.vStr (oidStr (n0 + j))) := by
  induction len with
  | zero => intro n0 x h; simp [strIds] at h
  | succ l ih =>
    intro n0 x h
    simp only [strIds, List.mem_cons] at h
    rcases h with h | h
    · exact ⟨0, by omega, by simp [h]⟩
    · obtain ⟨j, hj, he⟩ := ih (n0 + 1) x h
      refine ⟨j + 1, by omega, ?_⟩
      rw [he]
      have e : n0 + 1 + j = n0 + (j + 1) := by omega
      rw [e]

theorem strIds_nodup (len : Nat) : ∀ n0 : Nat, n0 + len ≤ 16 ^ 24 →
    (strIds n0 len).Nodup := by
  induction len with
  | zero => intro n0 _; simp [strIds]
  | succ l ih =>
    intro n0 hb
    simp only [strIds, List.nodup_cons]
    constructor
    · intro hmem
      obtain ⟨j, hj, he⟩ := mem_strIds_inv l (n0 + 1) _ hmem
      have hs : oidStr n0 = oidStr (n0 + 1 + j) := by
        injection he with he2
        injection he2 with he3
      have := oidStr_inj n0 (n0 + 1 + j) (by omega) (by omega) hs
      omega
    · exact ih (n0 + 1) (by omega)

theorem find?_append_none (p : Doc → Bool) (a b : List Doc)
    (h : a.find? p = none) : (a ++ b).find? p = b.find? p := by
  induction a with
  | nil => simp
  | cons x rest ih =>
    rw [List.find?_eq_none] at h
    have hx : ¬ p x = true := h x (by simp)
    have hrest : rest.find? p = none := by
      rw [List.find?_eq_none]
      exact fun y hy => h y (by simp [hy])
    simp only [List.cons_append]
    rw [List.find?_cons_of_neg _ hx]
    exact ih hrest

theorem collWF_find_none (c : Coll) (hwf : collWF c) (m : Nat)
    (hm : c.nextId ≤ m) :
    c.docs.find? (idMatches (Value.vOid m)) = none := by
  rw [List.find?_eq_none]
  intro d hd
  obtain ⟨-, k, hk, hgf⟩ := hwf d hd
  simp [idMatches, hgf]
  omega

theorem find?_replaceFirstById (docs : List Doc) (v : Value) (nd d : Doc)
    (hfind : docs.find? (idMatches v) = some d)
    (hnd : idMatches v nd = true) :
    (replaceFirstById docs v nd).find? (idMatches v) = some nd := by
  induction docs with
  | nil => simp [List.find?] at hfind
  | cons a rest ih =>
    by_cases ha : idMatches v a
    · simp only [replaceFirstById, ha, if_true]
      exact List.find?_cons_of_pos _ hnd
    · have hstep : replaceFirstById (a :: rest) v nd
          = a :: replaceFirstById rest v nd := by
        simp [replaceFirstById, ha]
      rw [List.find?_cons_of_neg _ ha] at hfind
      rw [hstep, List.find?_cons_of_neg _ ha]
      exact ih hfind

theorem nodup_filterStr_length (f : ClusterDoc → String)
    (l : List ClusterDoc) (x : ClusterDoc)
    (hnd : (l.map f).Nodup) (hx : x ∈ l) :
    (l.filter (fun e => f e == f x)).length = 1 := by
  induction l with
  | nil => cases hx
  | cons a rest ih =>
    simp only [List.map_cons, List.nodup_cons] at hnd
    by_cases ha : f a = f x
    · have h0 : rest.filter (fun e => f e == f x) = [] := by
        rw [List.filter_eq_nil_iff]
        intro e he hc
        have hfe : f e = f x := by simpa using hc
        apply hnd.1
        rw [ha, ← hfe]
        exact List.mem_map_of_mem f he
      simp [List.filter_cons, ha, h0]
    · have hx2 : x ∈ rest := by
        rcases List.mem_cons.mp hx with h | h
        · exact absurd (congrArg f h.symm) ha
        · exact h
      simp [List.filter_cons, ha, ih hnd.2 hx2]

theorem toRecords_fillna_eq (df2 : DataFrame) :
    toRecords (fillna df2 (Value.vStr ""))
      = df2.rows.map (fun r => r.map (fun p => (p.1, p.2.getD (Value.vStr "")))) := by
  simp [toRecords, fillna, List.map_map, Function.comp]

theorem findIdIn_inserted (items : List Doc) (c : Coll) (hwf : collWF c)
    (hno : ∀ it ∈ items, getField it "_id" = none) :
    findIdIn ⟨c.docs ++ withIds c.nextId items, c.nextId + items.length⟩
        (idsFrom c.nextId items.length) (idsFrom c.nextId items.length).length
      = withIds c.nextId items := by
  unfold findIdIn
  simp only [List.filter_append]
  rw [old_docs_filter_none c hwf items.length,
    withIds_filter_all items c.nextId (idsFrom c.nextId items.length) hno
      (fun j hj => mem_idsFrom items.length c.nextId j hj)]
  simp only [List.nil_append, idsFrom_length]
  rw [← withIds_length c.nextId items]
  exact List.take_length _

/-- C3: register preserves the global uniqueness of cluster names and
URIs: registering a name already present fails with the 400
duplicate-name error, registering a URI already present under a fresh
name fails with the 400 duplicate-URI error, both rejections leave the
registry unchanged with exactly one entry for the existing name
resp. URI, and an accepted registration keeps the uniqueness invariant. -/
theorem C3_register_unique (reg : List ClusterDoc) (n u : String)
    (hwf : regWF reg) :
    ((∃ e ∈ reg, e.cluster = n) →
      register_cluster reg n u
        = (.error (.http 400 ("Cluster name " ++ n ++ " already exists")), reg)
      ∧ (reg.filter (fun e => e.cluster == n)).length = 1)
    ∧ ((¬ ∃ e ∈ reg, e.cluster = n) → (∃ e ∈ reg, e.uri = u) →
      register_cluster reg n u
        = (.error (.http 400 "This MongoDB URI is already registered"), reg)
      ∧ (reg.filter (fun e => e.uri == u)).length = 1)
    ∧ regWF (register_cluster reg n u).2 := by
  refine ⟨?_, ?_, ?_⟩
  · rintro ⟨e0, he0, hc⟩
    have hsome : (reg.find? (fun e => e.cluster == n)).isSome := by
      rw [List.find?_isSome]
      exact ⟨e0, he0, by simp [hc]⟩
    constructor
    · simp [register_cluster, hsome]
    · have h1 := nodup_filterStr_length (fun e => e.cluster) reg e0 hwf.1 he0
      simpa [hc] using h1
  · intro hno
    rintro ⟨e0, he0, hu⟩
    have hnone : reg.find? (fun e => e.cluster == n) = none := by
      rw [List.find?_eq_none]
      intro e he
      simp only [beq_iff_eq]
      exact fun hc => hno ⟨e, he, hc⟩
    have husome : (reg.find? (fun e => e.uri == u)).isSome := by
      rw [List.find?_isSome]
      exact ⟨e0, he0, by simp [hu]⟩
    constructor
    · simp [register_cluster, hnone, husome]
    · have h1 := nodup_filterStr_length (fun e => e.uri) reg e0 hwf.2 he0
      simpa [hu] using h1
  · by_cases h1 : (reg.find? (fun e => e.cluster == n)).isSome
    · simpa [register_cluster, h1] using hwf
    · by_cases h2 : (reg.find? (fun e => e.uri == u)).isSome
      · simpa [register_cluster, h1, h2] using hwf
      · have h1n := Option.not_isSome_iff_eq_none.mp h1
        have h2n := Option.not_isSome_iff_eq_none.mp h2
        rw [List.find?_eq_none] at h1n h2n
        have hstate : (register_cluster reg n u).2 = reg ++ [⟨n, u⟩] := by
          simp [register_cluster, h1, h2]
        rw [hstate]
        constructor
        · rw [List.map_append, List.nodup_append]
          refine ⟨hwf.1, by simp, ?_⟩
          intro x hx hx2
          simp only [List.map_cons, List.map_nil, List.mem_singleton] at hx2
          obtain ⟨e, he, hec⟩ := List.mem_map.mp hx
          have hne : e.cluster ≠ n := by simpa using h1n e he
          exact hne (hec.trans hx2)
        · rw [List.map_append, List.nodup_append]
          refine ⟨hwf.2, by simp, ?_⟩
          intro x hx hx2
          simp only [List.map_cons, List.map_nil, List.mem_singleton] at hx2
          obtain ⟨e, he, hec⟩ := List.mem_map.mp hx
          have hne : e.uri ≠ u := by simpa using h2n e he
          exact hne (hec.trans hx2)

theorem C3_witness :
    register_cluster [⟨"west", "mongodb-x"⟩] "west" "mongodb-y"
      = (.error (.http 400 ("Cluster name " ++ "west" ++ " already exists")),
         [⟨"west", "mongodb-x"⟩])
    ∧ ([(⟨"west", "mongodb-x"⟩ : ClusterDoc)].filter
        (fun e => e.cluster == "west")).length = 1 := by
  exact (C3_register_unique [⟨"west", "mongodb-x"⟩] "west" "mongodb-y"
    ⟨by decide, by decide⟩).1 ⟨⟨"west", "mongodb-x"⟩, by simp, rfl⟩

/-- C4: resolution with the sentinel default selector or an absent or
empty selector always yields the process-wide default client, for every
registry state; a selector not present in the registry fails with the
404 cluster-not-found error naming the selector, and no fresh
connection is produced. -/
theorem C4_resolve (reg : List ClusterDoc) (name : String)
    (h1 : name ≠ "") (h2 : name ≠ "default")
    (h3 : ∀ e ∈ reg, e.cluster ≠ name) :
    get_client_from_cluster reg "default" = .ok Client.defaultClient
    ∧ get_client_from_cluster reg "" = .ok Client.defaultClient
    ∧ get_client_from_cluster reg name
        = .error (.http 404 ("Cluster " ++ name ++ " not found"))
    ∧ ∀ uri, get_client_from_cluster reg name ≠ .ok (Client.fresh uri) := by
  have hfind : reg.find? (fun e => e.cluster == name) = none := by
    rw [List.find?_eq_none]
    intro e he
    simpa using h3 e he
  refine ⟨by simp [get_client_from_cluster],
    by simp [get_client_from_cluster], ?_, ?_⟩
  · simp [get_client_from_cluster, h1, h2, hfind]
  · intro uri
    simp [get_client_from_cluster, h1, h2, hfind]

theorem C4_witness :
    get_client_from_cluster [⟨"west", "mongodb-x"⟩] "default"
      = .ok Client.defaultClient
    ∧ get_client_from_cluster [⟨"west", "mongodb-x"⟩] "missing-name"
        = .error (.http 404 ("Cluster " ++ "missing-name" ++ " not found")) := by
  have h := C4_resolve [⟨"west", "mongodb-x"⟩] "missing-name"
    (by decide) (by decide)
    (by intro e he; simp at he; rw [he]; decide)
  exact ⟨h.1, h.2.2.1⟩

/-- C10: an Update-one or Delete-one call whose identifier path parameter
is not a well-formed 24-hex-character ObjectId string fails with the
uncaught InvalidId error, surfaced as a generic server failure and not as
the 404 not-found reply, and leaves the collection unchanged. -/
theorem C10_invalid_objectid (s : String) (u : Doc) (c : Coll)
    (h : validObjectId s = false) :
    update_item s u c = (.error (.uncaught ("bson InvalidId: " ++ s)), c)
    ∧ delete_item s c = (.error (.uncaught ("bson InvalidId: " ++ s)), c)
    ∧ ∀ st detail,
        (ApiErr.uncaught ("bson InvalidId: " ++ s)) ≠ ApiErr.http st detail := by
  have hp : oidFromString s = .error ("bson InvalidId: " ++ s) := by
    simp [oidFromString, h]
  refine ⟨by simp [update_item, hp], by simp [delete_item, hp], ?_⟩
  intro st detail hc
  cases hc

theorem C10_witness :
    update_item "not-hex" [] ⟨[], 0⟩
      = (.error (.uncaught ("bson InvalidId: " ++ "not-hex")), ⟨[], 0⟩)
    ∧ delete_item "not-hex" ⟨[], 0⟩
      = (.error (.uncaught ("bson InvalidId: " ++ "not-hex")), ⟨[], 0⟩) := by
  have h := C10_invalid_objectid "not-hex" [] ⟨[], 0⟩ (by decide)
  exact ⟨h.1, h.2.1⟩

theorem mem_withIds_inv (items : List Doc) : ∀ n0 : Nat, ∀ d ∈ withIds n0 items,
    ∃ it ∈ items, ∃ m : Nat, d = it ++ [("_id", Value.vOid m)] := by
  induction items with
  | nil => intro n0 d hd; simp [withIds] at hd
  | cons it rest ih =>
    intro n0 d hd
    simp only [withIds, List.mem_cons] at hd
    rcases hd with hd | hd
    · exact ⟨it, by simp, n0, hd⟩
    · obtain ⟨it2, hit2, m, he⟩ := ih (n0 + 1) d hd
      exact ⟨it2, by simp [hit2], m, he⟩

theorem docKeys_append_id_nodup (it : Doc) (m : Nat)
    (hnd : (docKeys it).Nodup) (hno : getField it "_id" = none) :
    (docKeys (it ++ [("_id", Value.vOid m)])).Nodup := by
  have h0 : countKey it "_id" = 0 := (getField_eq_none_iff it "_id").mp hno
  have hmem : "_id" ∉ docKeys it := (countKey_eq_zero_iff it "_id").mp h0
  have hkeys : docKeys (it ++ [("_id", Value.vOid m)])
      = docKeys it ++ ["_id"] := by
    simp [docKeys]
  rw [hkeys, List.nodup_append]
  refine ⟨hnd, by simp, ?_⟩
  intro x hx hx2
  simp only [List.mem_singleton] at hx2
  rw [hx2] at hx
  exact hmem hx

theorem serialize_withid_spec (it : Doc) (m : Nat)
    (hnd : (docKeys it).Nodup) (hno : getField it "_id" = none) :
    countKey (serialize (it ++ [("_id", Value.vOid m)])) "id" = 1
    ∧ getField (serialize (it ++ [("_id", Value.vOid m)])) "id"
        = some (Value.vStr (oidStr m))
    ∧ countKey (serialize (it ++ [("_id", Value.vOid m)])) "_id" = 0
    ∧ getField (serialize (it ++ [("_id", Value.vOid m)])) "_id" = none := by
  have hid := getField_appended_id it m hno
  have hk := docKeys_append_id_nodup it m hnd hno
  obtain ⟨hg, hc1, hgn, hcn⟩ := serialize_spec _ _ hid hk
  exact ⟨hc1, hg, hcn, hgn⟩

theorem mem_docKeys_setField (d : Doc) (k x : String) (v : Value) :
    x ∈ docKeys (setField d k v) ↔ x ∈ docKeys d ∨ x = k := by
  induction d with
  | nil => simp [setField, docKeys]
  | cons p rest ih =>
    by_cases hp : p.1 = k
    · have hstep : setField (p :: rest) k v = (k, v) :: rest := by
        simp [setField, hp]
      rw [hstep]
      simp only [docKeys, List.map_cons, List.mem_cons]
      rw [hp]
      tauto
    · have hstep : setField (p :: rest) k v = p :: setField rest k v := by
        simp [setField, hp]
      rw [hstep]
      simp only [docKeys, List.map_cons, List.mem_cons] at *
      tauto

theorem docKeys_setField_nodup (d : Doc) (k : String) (v : Value)
    (h : (docKeys d).Nodup) : (docKeys (setField d k v)).Nodup := by
  induction d with
  | nil => simp [setField, docKeys]
  | cons p rest ih =>
    simp only [docKeys, List.map_cons, List.nodup_cons] at h
    by_cases hp : p.1 = k
    · have hstep : setField (p :: rest) k v = (k, v) :: rest := by
        simp [setField, hp]
      rw [hstep]
      simp only [docKeys, List.map_cons, List.nodup_cons]
      exact ⟨by rw [← hp]; exact h.1, h.2⟩
    · have hstep : setField (p :: rest) k v = p :: setField rest k v := by
        simp [setField, hp]
      rw [hstep]
      simp only [docKeys, List.map_cons, List.nodup_cons]
      constructor
      · intro hmem
        rcases (mem_docKeys_setField rest k p.1 v).mp hmem with hm | hm
        · exact h.1 hm
        · exact hp hm
      · exact ih h.2

theorem docKeys_applySet_nodup (u : Doc) : ∀ d : Doc,
    (docKeys d).Nodup → (docKeys (applySet d u)).Nodup := by
  induction u with
  | nil => intro d h; simpa [applySet] using h
  | cons p rest ih =>
    intro d h
    have hstep : applySet d (p :: rest) = applySet (setField d p.1 p.2) rest := by
      simp [applySet]
    rw [hstep]
    exact ih _ (docKeys_setField_nodup d p.1 p.2 h)

theorem mem_replaceFirstById (docs : List Doc) (v : Value) (nd d2 : Doc)
    (h : d2 ∈ replaceFirstById docs v nd) : d2 ∈ docs ∨ d2 = nd := by
  induction docs with
  | nil => simp [replaceFirstById] at h
  | cons a rest ih =>
    by_cases ha : idMatches v a
    · have hstep : replaceFirstById (a :: rest) v nd = nd :: rest := by
        simp [replaceFirstById, ha]
      rw [hstep] at h
      rcases List.mem_cons.mp h with h2 | h2
      · exact Or.inr h2
      · exact Or.inl (List.mem_cons_of_mem _ h2)
    · have hstep : replaceFirstById (a :: rest) v nd
          = a :: replaceFirstById rest v nd := by
        simp [replaceFirstById, ha]
      rw [hstep] at h
      rcases List.mem_cons.mp h with h2 | h2
      · exact Or.inl (by rw [h2]; exact List.mem_cons_self a rest)
      · rcases ih h2 with h3 | h3
        · exact Or.inl (List.mem_cons_of_mem _ h3)
        · exact Or.inr h3

theorem importRows_sample_ids (df : DataFrame) (n1 : Nat)
    (res : ImportResult) (c2 : Coll)
    (hit : ∀ it ∈ toRecords (fillna df (Value.vStr "")),
      (docKeys it).Nodup ∧ getField it "_id" = none)
    (hok : importRows df ⟨[], n1⟩ = (.ok res, c2)) :
    ∀ r ∈ res.sample, countKey r "id" = 1
      ∧ (∃ m, getField r "id" = some (Value.vStr (oidStr m)))
      ∧ countKey r "_id" = 0 ∧ getField r "_id" = none := by
  unfold importRows at hok
  by_cases he : (toRecords (fillna df (Value.vStr ""))).isEmpty
  · rw [if_pos he] at hok
    simp at hok
  · rw [if_neg he] at hok
    have hno : ∀ it ∈ toRecords (fillna df (Value.vStr "")),
        getField it "_id" = none := fun it h2 => (hit it h2).2
    have hins := collInsertMany_noid (toRecords (fillna df (Value.vStr "")))
      ⟨[], n1⟩ hno
    simp only [hins] at hok
    simp only [Prod.mk.injEq, Except.ok.injEq] at hok
    obtain ⟨hres, -⟩ := hok
    intro r hr
    rw [← hres] at hr
    simp only [List.nil_append] at hr
    obtain ⟨d, hd, hd2⟩ := List.mem_map.mp hr
    obtain ⟨it, hitmem, m, hdef⟩ :=
      mem_withIds_inv _ _ _ (List.mem_of_mem_take hd)
    obtain ⟨h1, h2, h3, h4⟩ := serialize_withid_spec it m (hit it hitmem).1
      (hit it hitmem).2
    rw [← hd2, hdef]
    exact ⟨h1, ⟨m, h2⟩, h3, h4⟩

/-- C5: every document returned to a caller carries exactly one
identifier field under the fixed key id, holding the string form of the
store-assigned identifier, and never the raw backend key _id; stated
for each of the returning operations the claim enumerates: insert-one
(create_item, whose reply is the serialized re-read of the stored
document), find-all (get_items), find-one-by-filter (query_item),
insert-many (insert_many_items), the drop-and-import sample (both
loader branches) and update-one (update_item), over well-formed states
and payloads. -/
theorem C5_id_normalization :
    (∀ (item : Doc) (c : Coll), collWF c → (docKeys item).Nodup →
      getField item "_id" = none →
      create_item item c
        = (.ok (serialize (item ++ [("_id", Value.vOid c.nextId)])),
           ⟨c.docs ++ [item ++ [("_id", Value.vOid c.nextId)]], c.nextId + 1⟩)
      ∧ countKey (serialize (item ++ [("_id", Value.vOid c.nextId)])) "id" = 1
      ∧ getField (serialize (item ++ [("_id", Value.vOid c.nextId)])) "id"
          = some (Value.vStr (oidStr c.nextId))
      ∧ countKey (serialize (item ++ [("_id", Value.vOid c.nextId)])) "_id" = 0
      ∧ getField (serialize (item ++ [("_id", Value.vOid c.nextId)])) "_id"
          = none)
    ∧ (∀ (c : Coll) (out : List Doc) (c2 : Coll), collWF c →
        get_items c = (.ok out, c2) →
        ∀ r ∈ out, ∃ d ∈ c.docs, r = serialize d
          ∧ countKey r "id" = 1
          ∧ (∃ v, getField d "_id" = some v
              ∧ getField r "id" = some (Value.vStr (valueStr v)))
          ∧ countKey r "_id" = 0 ∧ getField r "_id" = none)
    ∧ (∀ (q : Doc) (c : Coll) (r : Doc) (c2 : Coll), collWF c →
        query_item q c = (.ok r, c2) →
        ∃ d ∈ c.docs, r = serialize d
          ∧ countKey r "id" = 1
          ∧ (∃ v, getField d "_id" = some v
              ∧ getField r "id" = some (Value.vStr (valueStr v)))
          ∧ countKey r "_id" = 0 ∧ getField r "_id" = none)
    ∧ (∀ (items : List Doc) (c : Coll) (out : List Doc) (c2 : Coll),
        (∀ it ∈ items, (docKeys it).Nodup ∧ getField it "_id" = none) →
        collWF c → insert_many_items items c = (.ok out, c2) →
        ∀ r ∈ out, countKey r "id" = 1
          ∧ (∃ m, getField r "id" = some (Value.vStr (oidStr m)))
          ∧ countKey r "_id" = 0 ∧ getField r "_id" = none)
    ∧ (∀ (csvRead xlsRead : String → Except String DataFrame) (link : String)
        (c : Coll) (df : DataFrame) (res : ImportResult) (c2 : Coll),
        (∀ it ∈ toRecords (fillna df (Value.vStr "")),
          (docKeys it).Nodup ∧ getField it "_id" = none) →
        ((sniffLoader link = .csv ∧ csvRead link = .ok df)
          ∨ (sniffLoader link = .xls ∧ xlsRead link = .ok df)) →
        drop_and_import csvRead xlsRead link c = (.ok res, c2) →
        ∀ r ∈ res.sample, countKey r "id" = 1
          ∧ (∃ m, getField r "id" = some (Value.vStr (oidStr m)))
          ∧ countKey r "_id" = 0 ∧ getField r "_id" = none)
    ∧ (∀ (item_id : String) (n : Nat) (u : Doc) (c : Coll) (r : Doc) (c2 : Coll),
        oidFromString item_id = .ok n → u ≠ [] → getField u "_id" = none →
        collWF c → update_item item_id u c = (.ok r, c2) →
        countKey r "id" = 1
        ∧ getField r "id" = some (Value.vStr (valueStr (Value.vOid n)))
        ∧ countKey r "_id" = 0 ∧ getField r "_id" = none) := by
  refine ⟨?_, ?_, ?_, ?_, ?_, ?_⟩
  · intro item c hwf hitemnd hitem
    have hfound : collFindOneById
        ⟨c.docs ++ [item ++ [("_id", Value.vOid c.nextId)]], c.nextId + 1⟩
        (Value.vOid c.nextId)
        = some (item ++ [("_id", Value.vOid c.nextId)]) := by
      unfold collFindOneById
      rw [find?_append_none _ _ _ (collWF_find_none c hwf c.nextId (le_refl _))]
      rw [List.find?_cons_of_pos]
      simp [idMatches, getField_appended_id item c.nextId hitem]
    obtain ⟨h1, h2, h3, h4⟩ := serialize_withid_spec item c.nextId hitemnd hitem
    refine ⟨?_, h1, h2, h3, h4⟩
    simp only [create_item, collInsertOne, hitem]
    rw [hfound]
  · intro c out c2 hwf hok r hr
    simp only [get_items, Prod.mk.injEq, Except.ok.injEq] at hok
    rw [← hok.1] at hr
    obtain ⟨d, hd, he⟩ := List.mem_map.mp hr
    have hr1 : r = serialize d := he.symm
    subst hr1
    have hdmem := List.mem_of_mem_take hd
    obtain ⟨hnd, k, hk, hgf⟩ := hwf d hdmem
    obtain ⟨hg, hc1, hgn, hcn⟩ := serialize_spec d _ hgf hnd
    exact ⟨d, hdmem, rfl, hc1, ⟨Value.vOid k, hgf, hg⟩, hcn, hgn⟩
  · intro q c r c2 hwf hok
    unfold query_item at hok
    cases hfind : c.docs.find? (docMatches q) with
    | none =>
      simp only [hfind] at hok
      simp at hok
    | some d =>
      simp only [hfind] at hok
      simp only [Prod.mk.injEq, Except.ok.injEq] at hok
      have hr1 : r = serialize d := hok.1.symm
      subst hr1
      have hdmem := List.mem_of_find?_eq_some hfind
      obtain ⟨hnd, k, hk, hgf⟩ := hwf d hdmem
      obtain ⟨hg, hc1, hgn, hcn⟩ := serialize_spec d _ hgf hnd
      exact ⟨d, hdmem, rfl, hc1, ⟨Value.vOid k, hgf, hg⟩, hcn, hgn⟩
  · intro items c out c2 hit hwf hok
    cases items with
    | nil => simp [insert_many_items] at hok
    | cons it0 rest =>
      have hno : ∀ it ∈ it0 :: rest, getField it "_id" = none :=
        fun it h2 => (hit it h2).2
      have hins := collInsertMany_noid (it0 :: rest) c hno
      unfold insert_many_items at hok
      rw [if_neg (by simp)] at hok
      simp only [hins] at hok
      rw [findIdIn_inserted (it0 :: rest) c hwf hno] at hok
      simp only [Prod.mk.injEq, Except.ok.injEq] at hok
      intro r hr
      rw [← hok.1] at hr
      obtain ⟨d, hd, he⟩ := List.mem_map.mp hr
      obtain ⟨it, hitmem, m, hdef⟩ := mem_withIds_inv (it0 :: rest) c.nextId d hd
      obtain ⟨h1, h2, h3, h4⟩ := serialize_withid_spec it m (hit it hitmem).1
        (hit it hitmem).2
      rw [← he, hdef]
      exact ⟨h1, ⟨m, h2⟩, h3, h4⟩
  · intro csvRead xlsRead link c df res c2 hit hbranch hok
    rcases hbranch with ⟨hs, hl⟩ | ⟨hs, hl⟩
    · unfold drop_and_import at hok
      simp only [hs, hl] at hok
      exact importRows_sample_ids df c.nextId res c2 hit hok
    · unfold drop_and_import at hok
      simp only [hs, hl] at hok
      exact importRows_sample_ids df c.nextId res c2 hit hok
  · intro item_id n u c r c2 hid hu huid hwf hok
    have hne : u.isEmpty = false := by
      cases u
      · exact absurd rfl hu
      · rfl
    unfold update_item at hok
    simp only [hid] at hok
    cases hcu : collUpdateOne c (Value.vOid n) u with
    | error m =>
      simp only [hcu] at hok
      simp at hok
    | ok rc =>
      simp only [hcu] at hok
      by_cases hm : rc.1.modified = 0
      · rw [if_pos hm] at hok
        simp at hok
      · rw [if_neg hm] at hok
        cases hf : collFindOneById rc.2 (Value.vOid n) with
        | none =>
          simp only [hf] at hok
          simp at hok
        | some d2 =>
          simp only [hf] at hok
          simp only [Prod.mk.injEq, Except.ok.injEq] at hok
          have hr1 : r = serialize d2 := hok.1.symm
          subst hr1
          have hf2 : rc.2.docs.find? (idMatches (Value.vOid n)) = some d2 := hf
          have hgd2 : getField d2 "_id" = some (Value.vOid n) := by
            have hpd := List.find?_some hf2
            simpa [idMatches] using hpd
          have hd2mem : d2 ∈ rc.2.docs := List.mem_of_find?_eq_some hf2
          unfold collUpdateOne at hcu
          rw [if_neg (by simp [hne])] at hcu
          cases hfd : c.docs.find? (idMatches (Value.vOid n)) with
          | none =>
            simp only [hfd] at hcu
            simp only [Except.ok.injEq] at hcu
            rw [← hcu] at hm
            simp at hm
          | some d0 =>
            simp only [hfd] at hcu
            by_cases hch : applySet d0 u = d0
            · rw [if_pos hch] at hcu
              simp only [Except.ok.injEq] at hcu
              rw [← hcu] at hm
              simp at hm
            · rw [if_neg hch] at hcu
              simp only [Except.ok.injEq] at hcu
              have hdocs : rc.2.docs
                  = replaceFirstById c.docs (Value.vOid n) (applySet d0 u) := by
                rw [← hcu]
              rw [hdocs] at hd2mem
              have hnd2 : (docKeys d2).Nodup := by
                rcases mem_replaceFirstById c.docs (Value.vOid n)
                    (applySet d0 u) d2 hd2mem with hmm | heq
                · exact (hwf d2 hmm).1
                · rw [heq]
                  exact docKeys_applySet_nodup u d0
                    (hwf d0 (List.mem_of_find?_eq_some hfd)).1
              obtain ⟨hg, hc1, hgn, hcn⟩ := serialize_spec d2 _ hgd2 hnd2
              exact ⟨hc1, hg, hcn, hgn⟩

theorem C5_witness :
    create_item [("name", Value.vStr "a")] ⟨[], 3⟩
      = (.ok (serialize ([("name", Value.vStr "a")] ++ [("_id", Value.vOid 3)])),
         ⟨[] ++ [[("name", Value.vStr "a")] ++ [("_id", Value.vOid 3)]], 3 + 1⟩)
    ∧ countKey (serialize ([("name", Value.vStr "a")] ++ [("_id", Value.vOid 3)]))
        "id" = 1
    ∧ countKey (serialize ([("name", Value.vStr "a")] ++ [("_id", Value.vOid 3)]))
        "_id" = 0 := by
  have h := C5_id_normalization.1 [("name", Value.vStr "a")] ⟨[], 3⟩
    (by intro d hd; simp at hd) (by decide) (by decide)
  exact ⟨h.1, h.2.1, h.2.2.2.1⟩

/-- C2 as stated is false at this input: with an empty partial-fields
payload, update_item does not fail with a 400 validation error; the
empty set-document reaches the backend whose rejection surfaces as an
uncaught error (the second conjunct shows the reply is not an
HTTPException of any status), though the stored document is indeed
unchanged. -/
theorem C2_counterexample :
    update_item "000000000000000000000000" []
        ⟨[[("_id", Value.vOid 0), ("name", Value.vStr "a")]], 1⟩
      = (.error (.uncaught "WriteError: $set is empty"),
         ⟨[[("_id", Value.vOid 0), ("name", Value.vStr "a")]], 1⟩)
    ∧ (match update_item "000000000000000000000000" []
          ⟨[[("_id", Value.vOid 0), ("name", Value.vStr "a")]], 1⟩ with
       | (.error (.http _ _), _) => False
       | _ => True) := by
  exact ⟨rfl, trivial⟩

/-- C2 amended: update_item performs no emptiness validation at all; a
payload with no fields is passed to the backend, whose rejection of the
empty set-document surfaces as an uncaught error (a generic 500) with
the collection unchanged; null-valued fields are not filtered out but
applied, setting the field to null. -/
theorem C2_amended_no_empty_check (item_id : String) (n : Nat) (c : Coll)
    (hid : oidFromString item_id = .ok n) :
    update_item item_id [] c
      = (.error (.uncaught "WriteError: $set is empty"), c)
    ∧ ∀ (d : Doc) (k : String),
        getField (applySet d [(k, Value.vNull)]) k = some Value.vNull := by
  constructor
  · simp [update_item, hid, collUpdateOne]
  · intro d k
    have : applySet d [(k, Value.vNull)] = setField d k Value.vNull := by
      simp [applySet]
    rw [this, getField_setField_self]

theorem C2_witness :
    update_item "000000000000000000000001" [] ⟨[], 5⟩
      = (.error (.uncaught "WriteError: $set is empty"), ⟨[], 5⟩)
    ∧ getField (applySet [("name", Value.vStr "a")] [("name", Value.vNull)]) "name"
        = some Value.vNull := by
  have h := C2_amended_no_empty_check "000000000000000000000001" 1 ⟨[], 5⟩ (by rfl)
  exact ⟨h.1, h.2 [("name", Value.vStr "a")] "name"⟩

/-- C1 as stated is false at this input: on a link matching neither
pattern the operation does fail with the 400 error, but the target
collection does not keep its pre-call contents; it has already been
dropped and is left empty. -/
theorem C1_counterexample :
    drop_and_import (fun _ => .error "boom") (fun _ => .error "boom")
        "data.txt" ⟨[[("_id", Value.vOid 0), ("name", Value.vStr "a")]], 1⟩
      = (.error (.http 400 "Failed to load file: 400: Unsupported file type"),
         ⟨[], 1⟩)
    ∧ (⟨[], 1⟩ : Coll)
        ≠ ⟨[[("_id", Value.vOid 0), ("name", Value.vStr "a")]], 1⟩ := by
  exact ⟨rfl, by decide⟩

/-- C1 amended: a drop-and-import call whose link matches neither the
CSV nor the spreadsheet substring still fails with the 400
unsupported-file-type error (wrapped in the load-failure detail), but
only after the drop: the collection is emptied before the link is
inspected, so the pre-call contents are lost. -/
theorem C1_amended_drop_first
    (csvRead xlsRead : String → Except String DataFrame)
    (link : String) (c : Coll) (h : sniffLoader link = .unsupported) :
    drop_and_import csvRead xlsRead link c
      = (.error (.http 400 "Failed to load file: 400: Unsupported file type"),
         ⟨[], c.nextId⟩) := by
  simp [drop_and_import, h]

theorem C1_witness :
    drop_and_import (fun _ => .error "boom") (fun _ => .error "boom")
        "report.pdf" ⟨[[("_id", Value.vOid 7)]], 8⟩
      = (.error (.http 400 "Failed to load file: 400: Unsupported file type"),
         ⟨[], 8⟩) :=
  C1_amended_drop_first (fun _ => .error "boom") (fun _ => .error "boom")
    "report.pdf" ⟨[[("_id", Value.vOid 7)]], 8⟩ rfl

/-- C8 as stated is false at this input: loader selection is not
extension sniffing; the link csvdata.xlsx carries the spreadsheet
extension (the spec-modelled extension sniffing picks the spreadsheet
loader), yet the code picks the CSV loader because the substring csv
occurs in the name, and the call succeeds through the CSV reader while
the spreadsheet reader would have failed. -/
theorem C8_counterexample :
    sniffLoader "csvdata.xlsx" = LoaderChoice.csv
    ∧ specExtensionChoice "csvdata.xlsx" = LoaderChoice.xls
    ∧ (drop_and_import
        (fun _ => .ok ⟨[[("a", some (Value.vStr "1"))]]⟩)
        (fun _ => .error "xls reader must not run")
        "csvdata.xlsx" ⟨[], 0⟩).1
      = .ok ⟨1, [[("a", Value.vStr "1"), ("id", Value.vStr (oidStr 0))]]⟩ := by
  exact ⟨rfl, rfl, rfl⟩

/-- C8 amended: the loader is selected by substring sniffing over the
whole link string with the CSV pattern checked first: a link containing
csv anywhere loads as CSV regardless of its extension, otherwise one
containing xls anywhere loads as a spreadsheet, and exactly when neither
substring occurs the call fails with the 400 unsupported-file-type error
(surfaced wrapped in the load-failure detail); when one loader is
selected the other is never consulted. -/
theorem C8_amended_substring_sniffing (link : String) :
    (sniffLoader link = .csv ↔ containsSub link "csv" = true)
    ∧ (sniffLoader link = .xls
        ↔ (containsSub link "csv" = false ∧ containsSub link "xls" = true))
    ∧ (sniffLoader link = .unsupported
        ↔ (containsSub link "csv" = false ∧ containsSub link "xls" = false))
    ∧ (∀ csvRead xlsRead xlsRead2 c, sniffLoader link = .csv →
        drop_and_import csvRead xlsRead link c
          = drop_and_import csvRead xlsRead2 link c)
    ∧ (∀ csvRead csvRead2 xlsRead c, sniffLoader link = .xls →
        drop_and_import csvRead xlsRead link c
          = drop_and_import csvRead2 xlsRead link c)
    ∧ (∀ csvRead xlsRead c, sniffLoader link = .unsupported →
        (drop_and_import csvRead xlsRead link c).1
          = .error (.http 400 "Failed to load file: 400: Unsupported file type")) := by
  refine ⟨?_, ?_, ?_, ?_, ?_, ?_⟩
  · cases hc : containsSub link "csv" <;> cases hx : containsSub link "xls" <;>
      simp [sniffLoader, hc, hx]
  · cases hc : containsSub link "csv" <;> cases hx : containsSub link "xls" <;>
      simp [sniffLoader, hc, hx]
  · cases hc : containsSub link "csv" <;> cases hx : containsSub link "xls" <;>
      simp [sniffLoader, hc, hx]
  · intro csvRead xlsRead xlsRead2 c h
    simp [drop_and_import, h]
  · intro csvRead csvRead2 xlsRead c h
    simp [drop_and_import, h]
  · intro csvRead xlsRead c h
    simp [drop_and_import, h]

theorem C8_witness :
    sniffLoader "a.csv" = LoaderChoice.csv
    ∧ drop_and_import (fun _ => .ok ⟨[]⟩) (fun _ => .error "left") "a.csv" ⟨[], 0⟩
        = drop_and_import (fun _ => .ok ⟨[]⟩) (fun _ => .error "right") "a.csv" ⟨[], 0⟩ := by
  refine ⟨(C8_amended_substring_sniffing "a.csv").1.mpr rfl, ?_⟩
  exact (C8_amended_substring_sniffing "a.csv").2.2.2.1
    (fun _ => .ok ⟨[]⟩) (fun _ => .error "left") (fun _ => .error "right") ⟨[], 0⟩
    ((C8_amended_substring_sniffing "a.csv").1.mpr rfl)

/-- C9: a drop-and-import whose source loads successfully but yields
zero rows fails with the 400 empty-import error and leaves the target
collection empty, the prior contents having been dropped (first two
parts, one per loader); blank-cell normalization preserves the number of
rows and, cell by cell, the column names, replacing exactly the missing
cells by the empty string and keeping every present value (last part). -/
theorem C9_empty_import (csvRead xlsRead : String → Except String DataFrame)
    (link : String) (c : Coll) (df : DataFrame) (hempty : df.rows = []) :
    (sniffLoader link = .csv → csvRead link = .ok df →
      drop_and_import csvRead xlsRead link c
        = (.error (.http 400 "No data to insert"), ⟨[], c.nextId⟩))
    ∧ (sniffLoader link = .xls → xlsRead link = .ok df →
      drop_and_import csvRead xlsRead link c
        = (.error (.http 400 "No data to insert"), ⟨[], c.nextId⟩))
    ∧ (∀ df2 : DataFrame,
        (toRecords (fillna df2 (Value.vStr ""))).length = df2.rows.length
        ∧ List.Forall₂ (fun (row : List (String × Option Value)) (rec : Doc) =>
            List.Forall₂ (fun cell p =>
              p.1 = cell.1 ∧ p.2 = cell.2.getD (Value.vStr "")) row rec)
          df2.rows (toRecords (fillna df2 (Value.vStr "")))) := by
  refine ⟨?_, ?_, ?_⟩
  · intro hs hl
    simp [drop_and_import, hs, hl, importRows, toRecords, fillna, hempty]
  · intro hs hl
    simp [drop_and_import, hs, hl, importRows, toRecords, fillna, hempty]
  · intro df2
    constructor
    · simp [toRecords_fillna_eq]
    · rw [toRecords_fillna_eq]
      rw [List.forall₂_map_right_iff]
      rw [List.forall₂_same]
      intro row hrow
      rw [List.forall₂_map_right_iff, List.forall₂_same]
      intro cell hcell
      exact ⟨rfl, rfl⟩

theorem C9_witness :
    drop_and_import (fun _ => .ok ⟨[]⟩) (fun _ => .error "no")
        "a.csv" ⟨[[("_id", Value.vOid 4), ("x", Value.vStr "1")]], 5⟩
      = (.error (.http 400 "No data to insert"), ⟨[], 5⟩) :=
  (C9_empty_import (fun _ => .ok ⟨[]⟩) (fun _ => .error "no") "a.csv"
    ⟨[[("_id", Value.vOid 4), ("x", Value.vStr "1")]], 5⟩ ⟨[]⟩ rfl).1 rfl rfl

/-- C6: insert-many with an empty list fails with the 400 empty-batch
error and performs no backend operation (state unchanged); with N
documents it inserts all of them, appended to the store with their
assigned fresh identifiers, and replies with exactly N serialize images
of the stored documents, obtained by re-reading them by the assigned
identifiers, whose id fields are pairwise distinct. -/
theorem C6_insert_many (items : List Doc) (c : Coll) (hwf : collWF c)
    (hno : ∀ it ∈ items, getField it "_id" = none)
    (hbound : c.nextId + items.length ≤ 16 ^ 24) :
    (items = [] → insert_many_items items c
        = (.error (.http 400 "No data to insert"), c))
    ∧ (items ≠ [] →
        insert_many_items items c
          = (.ok ((withIds c.nextId items).map serialize),
             ⟨c.docs ++ withIds c.nextId items, c.nextId + items.length⟩)
        ∧ ((withIds c.nextId items).map serialize).length = items.length
        ∧ (((withIds c.nextId items).map serialize).map
            (fun d => getField d "id")).Nodup) := by
  constructor
  · intro he
    subst he
    rfl
  · intro hne
    refine ⟨?_, by simp [withIds_length], ?_⟩
    · have hins := collInsertMany_noid items c hno
      unfold insert_many_items
      rw [if_neg (by simpa [List.isEmpty_iff] using hne)]
      simp only [hins]
      rw [findIdIn_inserted items c hwf hno]
    · rw [withIds_serialize_ids items c.nextId hno]
      exact strIds_nodup items.length c.nextId hbound

theorem C6_witness :
    insert_many_items [[("a", Value.vStr "1")], [("a", Value.vStr "1")]] ⟨[], 0⟩
      = (.ok ((withIds 0 [[("a", Value.vStr "1")], [("a", Value.vStr "1")]]).map
            serialize),
         ⟨[] ++ withIds 0 [[("a", Value.vStr "1")], [("a", Value.vStr "1")]],
          0 + 2⟩)
    ∧ (((withIds 0 [[("a", Value.vStr "1")], [("a", Value.vStr "1")]]).map
          serialize).map (fun d => getField d "id")).Nodup := by
  have h := C6_insert_many [[("a", Value.vStr "1")], [("a", Value.vStr "1")]]
    ⟨[], 0⟩ (by intro d hd; simp at hd) (by decide) (by norm_num)
  exact ⟨(h.2 (by decide)).1, (h.2 (by decide)).2.2⟩

/-- C7 as stated is false at this input: the identifier matches the one
stored document (second conjunct), yet the call is answered with the 404
not-found error, because the merge-patch leaves the document unchanged
and the code tests modified_count rather than matched_count. -/
theorem C7_counterexample :
    update_item "000000000000000000000000" [("name", Value.vStr "a")]
        ⟨[[("_id", Value.vOid 0), ("name", Value.vStr "a")]], 1⟩
      = (.error (.http 404 "Item not found"),
         ⟨[[("_id", Value.vOid 0), ("name", Value.vStr "a")]], 1⟩)
    ∧ collFindOneById ⟨[[("_id", Value.vOid 0), ("name", Value.vStr "a")]], 1⟩
        (Value.vOid 0)
      = some [("_id", Value.vOid 0), ("name", Value.vStr "a")] := by
  exact ⟨rfl, rfl⟩

/-- C7 amended: with a non-empty payload update_item answers the 404
not-found error exactly when the backend reports zero modified
documents, which happens both when no stored document carries the
identifier and when the matched document is left unchanged by the
merge-patch; on an effective update the reply is the serialized
post-update document and the collection holds it in place of the old
one; fields not supplied in the payload are untouched by the
merge-patch. -/
theorem C7_amended_modified_count (item_id : String) (n : Nat) (u : Doc)
    (c : Coll) (hid : oidFromString item_id = .ok n) (hu : u ≠ [])
    (huid : getField u "_id" = none) :
    (collFindOneById c (Value.vOid n) = none →
      update_item item_id u c = (.error (.http 404 "Item not found"), c))
    ∧ (∀ d, collFindOneById c (Value.vOid n) = some d → applySet d u = d →
      update_item item_id u c = (.error (.http 404 "Item not found"), c))
    ∧ (∀ d, collFindOneById c (Value.vOid n) = some d → applySet d u ≠ d →
      update_item item_id u c
        = (.ok (serialize (applySet d u)),
           ⟨replaceFirstById c.docs (Value.vOid n) (applySet d u), c.nextId⟩))
    ∧ (∀ (d : Doc) (k : String), countKey u k = 0 →
      getField (applySet d u) k = getField d k) := by
  have hne : u.isEmpty = false := by
    cases u
    · exact absurd rfl hu
    · rfl
  refine ⟨?_, ?_, ?_, ?_⟩
  · intro hfind
    unfold collFindOneById at hfind
    simp [update_item, hid, collUpdateOne, hne, hfind]
  · intro d hfind hsame
    unfold collFindOneById at hfind
    simp [update_item, hid, collUpdateOne, hne, hfind, hsame]
  · intro d hfind hdiff
    unfold collFindOneById at hfind
    have hpd : idMatches (Value.vOid n) d = true := List.find?_some hfind
    have hgd : getField d "_id" = some (Value.vOid n) := by
      simpa [idMatches] using hpd
    have hga : getField (applySet d u) "_id" = some (Value.vOid n) := by
      rw [getField_applySet_notin u d "_id"
        ((getField_eq_none_iff u "_id").mp huid)]
      exact hgd
    have hpa : idMatches (Value.vOid n) (applySet d u) = true := by
      simp [idMatches, hga]
    have hfound := find?_replaceFirstById c.docs (Value.vOid n)
      (applySet d u) d hfind hpa
    simp [update_item, hid, collUpdateOne, hne, hfind, hdiff,
      collFindOneById, hfound]
  · intro d k hk
    exact getField_applySet_notin u d k hk

theorem C7_witness :
    update_item "000000000000000000000000" [("name", Value.vStr "b")]
        ⟨[[("_id", Value.vOid 0), ("name", Value.vStr "a")]], 1⟩
      = (.ok (serialize (applySet [("_id", Value.vOid 0), ("name", Value.vStr "a")]
            [("name", Value.vStr "b")])),
         ⟨replaceFirstById [[("_id", Value.vOid 0), ("name", Value.vStr "a")]]
            (Value.vOid 0)
            (applySet [("_id", Value.vOid 0), ("name", Value.vStr "a")]
              [("name", Value.vStr "b")]),
          1⟩) := by
  exact (C7_amended_modified_count "000000000000000000000000" 0
    [("name", Value.vStr "b")]
    ⟨[[("_id", Value.vOid 0), ("name", Value.vStr "a")]], 1⟩
    rfl (by decide) (by decide)).2.2.1
    [("_id", Value.vOid 0), ("name", Value.vStr "a")] rfl (by decide)
